import Mathlib

/-!
Verification of the type model and type-translation engine of the
factorio-lsp-plugin repository (Go), shallowly embedded in Lean 4.

Embedded source:
  - pkg/api/types.go       : the Type struct and its custom UnmarshalJSON decoder
  - pkg/generator/generator.go : translateFactorioTypeToLuaLS and the
    annotation generators that consume it

Modelling conventions:
  - Go `Type` is named `ApiType` here (`Type` is reserved in Lean); all other
    names follow the source.
  - JSON input values are modelled by the inductive `Json`.  A JSON number
    token carries its exact rational value together with a flag recording
    whether the source lexeme was an integer literal (no decimal point or
    exponent); Go's encoding/json converts every number token destined for an
    `interface\x7b\x7d` to float64, which we model as keeping the rational value and
    dropping the lexeme flag (float64 rounding is exact on every value used
    in this development and is not modelled).
  - Go `interface\x7b\x7d` results of generic unmarshalling are modelled by `GoValue`.
    Go maps are modelled as association lists (no claim inspects map order).
  - Fallible Go functions returning `error` are modelled with `Except String`.
    Error message texts are descriptive stand-ins; only which inputs error is
    asserted, except where the source literally returns the string "any".
  - Go strings are byte strings; all inputs exercised here are ASCII, where
    Lean's Char-list strings agree byte for byte.
-/

/-- One JSON value, as handed to the decoder.  `num` keeps the exact rational
value of the number token and whether the lexeme was an integer literal. -/
inductive Json where
  | str (s : String)
  | num (val : ℚ) (intLexeme : Bool)
  | boolean (b : Bool)
  | null
  | arr (elems : List Json)
  | obj (fields : List (String × Json))

/-- The result of Go json.Unmarshal into an `interface\x7b\x7d`: strings, float64
(every JSON number becomes float64 — there is no integer case), booleans,
nil, `[]interface\x7b\x7d` and `map[string]interface\x7b\x7d` (modelled as an association
list). -/
inductive GoValue where
  | str (s : String)
  | float (q : ℚ)
  | boolean (b : Bool)
  | null
  | arr (elems : List GoValue)
  | obj (fields : List (String × GoValue))

mutual

/-- Go json.Unmarshal of a JSON value into an `interface\x7b\x7d` target: numbers
(integer or floating lexeme alike) become float64, null becomes the nil
interface. -/
def jsonToGoValue : Json → GoValue
  | .str s => .str s
  | .num q _ => .float q
  | .boolean b => .boolean b
  | .null => .null
  | .arr xs => .arr (jsonListToGoValue xs)
  | .obj fs => .obj (jsonFieldsToGoValue fs)

def jsonListToGoValue : List Json → List GoValue
  | [] => []
  | j :: js => jsonToGoValue j :: jsonListToGoValue js

def jsonFieldsToGoValue : List (String × Json) → List (String × GoValue)
  | [] => []
  | (k, j) :: fs => (k, jsonToGoValue j) :: jsonFieldsToGoValue fs

end

/-- BasicMember (types.go): the common metadata fields.  `Lists` and
`Examples` are omitted; no claim depends on them. -/
structure BasicMember where
  name : String
  order : Int
  description : String

/-- The zero value of BasicMember. -/
def BasicMember.zero : BasicMember := ⟨"", 0, ""⟩

/-- The Type struct of pkg/api/types.go.  Field for field: Name, ComplexType,
Value (a possibly-nil pointer), Key (likewise), Values (a slice),
LiteralValue (an `interface\x7b\x7d`, nil modelled as `none`), FullFormat, and the
embedded BasicMember. -/
inductive ApiType where
  | mk (name : String) (complexType : String)
       (value : Option ApiType) (key : Option ApiType)
       (values : List ApiType) (literalValue : Option GoValue)
       (fullFormat : Bool) (basicMember : BasicMember)

def ApiType.name : ApiType → String
  | .mk n _ _ _ _ _ _ _ => n

def ApiType.complexType : ApiType → String
  | .mk _ c _ _ _ _ _ _ => c

def ApiType.value : ApiType → Option ApiType
  | .mk _ _ v _ _ _ _ _ => v

def ApiType.key : ApiType → Option ApiType
  | .mk _ _ _ k _ _ _ _ => k

def ApiType.values : ApiType → List ApiType
  | .mk _ _ _ _ vs _ _ _ => vs

def ApiType.literalValue : ApiType → Option GoValue
  | .mk _ _ _ _ _ l _ _ => l

def ApiType.fullFormat : ApiType → Bool
  | .mk _ _ _ _ _ _ f _ => f

def ApiType.basicMember : ApiType → BasicMember
  | .mk _ _ _ _ _ _ _ b => b

/-- Helper IsComplex (types.go). -/
def ApiType.isComplex (t : ApiType) : Bool := t.complexType ≠ ""

/-- Helper IsSimple (types.go): a non-empty Name and an empty ComplexType. -/
def ApiType.isSimple (t : ApiType) : Bool := t.name ≠ "" && t.complexType = ""

/-- Helper IsLiteral (types.go). -/
def ApiType.isLiteral (t : ApiType) : Bool := t.complexType = "literal"

/-- Helper IsBuiltinMarker (types.go): complex_type "builtin" and no other
data. -/
def ApiType.isBuiltinMarker (t : ApiType) : Bool :=
  t.complexType = "builtin" && t.name = "" && t.value.isNone && t.key.isNone
    && t.values.isEmpty && t.literalValue.isNone

/-- The zero value of the Type struct, as a freshly allocated receiver of
UnmarshalJSON starts out. -/
def ApiType.zero : ApiType := .mk "" "" none none [] none false BasicMember.zero

/-- A Type with only Name set, as produced for a bare JSON string. -/
def mkSimpleType (s : String) : ApiType := .mk s "" none none [] none false BasicMember.zero

/-- A union Type over the given options, as the decoder produces for
complex_type "union" with no metadata. -/
def mkUnionType (ts : List ApiType) : ApiType :=
  .mk "" "union" none none ts none false BasicMember.zero

/-- A literal Type carrying the given LiteralValue. -/
def mkLiteralType (v : Option GoValue) : ApiType :=
  .mk "" "literal" none none [] v false BasicMember.zero

/-- An array Type with the given element pointer. -/
def mkArrayType (v : Option ApiType) : ApiType :=
  .mk "" "array" v none [] none false BasicMember.zero

/-- A type-wrapper Type with the given inner pointer. -/
def mkWrapperType (v : Option ApiType) : ApiType :=
  .mk "" "type" v none [] none false BasicMember.zero

/-- The bare builtin marker, as decoding an object holding only
complex_type "builtin" would populate the receiver. -/
def mkBuiltinMarker : ApiType := .mk "" "builtin" none none [] none false BasicMember.zero

/-!
The decoder: Type.UnmarshalJSON (types.go:169-353).

Go reads the object into a temporary struct whose ValueRaw / KeyRaw /
ValuesRaw fields are json.RawMessage capturing the raw bytes of the fields
"value", "key" and "values", then dispatches on complex_type.  Duplicate
JSON keys overwrite, so the last occurrence of a key wins; this is modelled
by scanning the tail of the field list first.  The `json:",inline"` tag on
BasicMemberRaw is not a feature of encoding/json: the empty name before the
comma makes the key default to the Go field name, so the raw is populated
only from a literal "BasicMemberRaw" key (field-name matching is modelled
case-sensitively; every input exercised here uses exact keys).
-/

/-- Last-wins lookup of a raw field, as repeated json keys each overwrite a
RawMessage field (a null literal is captured too, as encoding/json hands
"null" to a RawMessage). -/
def getFieldLast (k : String) : List (String × Json) → Option Json
  | [] => none
  | (key, j) :: rest =>
      match getFieldLast k rest with
      | some r => some r
      | none => if key = k then some j else none

/-- Decoding a string-typed struct field: each occurrence in document order
is decoded in turn; a string overwrites, a null leaves the previous value
unchanged (mismatches are reported separately by tempFieldError). -/
def stringFieldValue (k : String) : List (String × Json) → String → String
  | [], acc => acc
  | (key, j) :: rest, acc =>
      stringFieldValue k rest
        (if key = k then (match j with | .str s => s | _ => acc) else acc)

/-- Decoding a bool-typed struct field, with the same overwrite rules. -/
def boolFieldValue (k : String) : List (String × Json) → Bool → Bool
  | [], acc => acc
  | (key, j) :: rest, acc =>
      boolFieldValue k rest
        (if key = k then (match j with | .boolean b => b | _ => acc) else acc)

/-- Decoding an int-typed struct field, with the same overwrite rules. -/
def intFieldValue (k : String) : List (String × Json) → Int → Int
  | [], acc => acc
  | (key, j) :: rest, acc =>
      intFieldValue k rest
        (if key = k then (match j with | .num q _ => q.num | _ => acc) else acc)

/-- The first type-mismatch error raised while json.Unmarshal fills the
temporary struct of UnmarshalJSON: "name"/"complex_type" accept strings and
null, "full_format" accepts booleans and null; the raw-message fields accept
anything.  encoding/json reports the first offending field in document
order. -/
def tempFieldError : List (String × Json) → Option String
  | [] => none
  | (k, j) :: rest =>
      if k = "name" ∨ k = "complex_type" then
        match j with
        | .str _ => tempFieldError rest
        | .null => tempFieldError rest
        | _ => some ("failed initial complex unmarshal of Type struct: cannot unmarshal into string field " ++ k)
      else if k = "full_format" then
        match j with
        | .boolean _ => tempFieldError rest
        | .null => tempFieldError rest
        | _ => some "failed initial complex unmarshal of Type struct: cannot unmarshal into bool field full_format"
      else tempFieldError rest

/-- Whether decoding the BasicMemberRaw bytes into a BasicMember errors
(string fields "name"/"description", int field "order"; a fractional number
cannot unmarshal into int).  On error the source logs a warning and keeps
the zero BasicMember. -/
def bmFieldError : List (String × Json) → Bool
  | [] => false
  | (k, j) :: rest =>
      (if k = "name" ∨ k = "description" then
        match j with
        | .str _ => false
        | .null => false
        | _ => true
      else if k = "order" then
        match j with
        | .num q _ => decide (q.den ≠ 1)
        | .null => false
        | _ => true
      else false) || bmFieldError rest

/-- Decode the captured BasicMemberRaw bytes, types.go:215-231: skipped when
absent, a null literal, or an empty object, and skipped (keeping the zero
value) when the inner unmarshal fails. -/
def decodeBasicMemberRaw : Option Json → BasicMember
  | some (Json.obj f2) =>
      if bmFieldError f2 then BasicMember.zero
      else ⟨stringFieldValue "name" f2 "", intFieldValue "order" f2 0,
            stringFieldValue "description" f2 ""⟩
  | _ => BasicMember.zero

/-- Turn the raw "value" bytes of a literal node into the LiteralValue
field: json.Unmarshal into an `interface\x7b\x7d` (never fails on valid JSON); a
null gives the nil interface, modelled as `none`. -/
def literalFromRaw : Option Json → Option GoValue
  | none => none
  | some j =>
      match jsonToGoValue j with
      | .null => none
      | v => some v

mutual

/-- Type.UnmarshalJSON (types.go:169-353).  First the data is probed as a
bare JSON string (a null also satisfies the probe, leaving the zero value);
otherwise it must be an object, which is read into the temporary struct and
dispatched on complex_type.  The "builtin" arm of the source reads
`return "any"` — a string where the function's `error` result is expected
(the program does not compile as written); it is modelled as returning that
string as the error value. -/
def ApiType.unmarshalJSON : Json → Except String ApiType
  | .str s =>
      -- the simple-string probe succeeds: Name is set, ComplexType cleared
      .ok (mkSimpleType s)
  | .null =>
      -- json.Unmarshal of null into the probe string is a no-op success
      .ok ApiType.zero
  | .obj fields =>
      match tempFieldError fields with
      | some e => .error e
      | none =>
        let name := stringFieldValue "name" fields ""
        let ctype := stringFieldValue "complex_type" fields ""
        let ff := boolFieldValue "full_format" fields false
        let bm := decodeBasicMemberRaw (getFieldLast "BasicMemberRaw" fields)
        match ctype with
        | "array" =>
          match decodeTypeField "value" fields with
          | some (.error e) => .error ("failed to unmarshal array value type: " ++ e)
          | some (.ok v) => .ok (.mk name ctype (some v) none [] none ff bm)
          | none => .ok (.mk name ctype none none [] none ff bm)
        | "dictionary" =>
          match decodeTypeField "key" fields with
          | some (.error e) => .error ("failed to unmarshal dictionary key type: " ++ e)
          | some (.ok k) =>
            match decodeTypeField "value" fields with
            | some (.error e) => .error ("failed to unmarshal dictionary value type: " ++ e)
            | some (.ok v) => .ok (.mk name ctype (some v) (some k) [] none ff bm)
            | none => .ok (.mk name ctype none (some k) [] none ff bm)
          | none =>
            match decodeTypeField "value" fields with
            | some (.error e) => .error ("failed to unmarshal dictionary value type: " ++ e)
            | some (.ok v) => .ok (.mk name ctype (some v) none [] none ff bm)
            | none => .ok (.mk name ctype none none [] none ff bm)
        | "union" =>
          match decodeValuesField fields with
          | some (.error e) => .error ("failed to unmarshal union values: " ++ e)
          | some (.ok vs) => .ok (.mk name ctype none none vs none ff bm)
          | none => .ok (.mk name ctype none none [] none ff bm)
        | "literal" =>
          .ok (.mk name ctype none none [] (literalFromRaw (getFieldLast "value" fields)) ff bm)
        | "type" =>
          match decodeTypeField "value" fields with
          | some (.error e) => .error ("failed to unmarshal wrapped type value: " ++ e)
          | some (.ok v) => .ok (.mk name ctype (some v) none [] none ff bm)
          | none => .ok (.mk name ctype none none [] none ff bm)
        | "struct" =>
          -- no additional unmarshalling for struct
          .ok (.mk name ctype none none [] none ff bm)
        | "tuple" =>
          match decodeValuesField fields with
          | some (.error e) => .error ("failed to unmarshal tuple values: " ++ e)
          | some (.ok vs) => .ok (.mk name ctype none none vs none ff bm)
          | none => .ok (.mk name ctype none none [] none ff bm)
        | "builtin" =>
          -- the source returns the string "any" where an error is expected
          .error "any"
        | _ =>
          -- empty or unknown complex_type: keep what was read (a warning is
          -- logged when Name is empty too)
          .ok (.mk name ctype none none [] none ff bm)
  | _ =>
      -- neither a string nor an object: the probe fails and the unmarshal of
      -- the temporary struct fails, so the decoder returns an error
      .error "failed initial complex unmarshal of Type struct: data is not an object"

/-- Decode the last occurrence of the raw field named `k` as a nested Type
(json.Unmarshal of the RawMessage into a fresh `&Type\x7b\x7d`); `none` when the
field is absent, mirroring the `len(raw) > 0` guards. -/
def decodeTypeField (k : String) : List (String × Json) → Option (Except String ApiType)
  | [] => none
  | (key, j) :: rest =>
      match decodeTypeField k rest with
      | some r => some r
      | none => if key = k then some (ApiType.unmarshalJSON j) else none

/-- Decode the last occurrence of the raw "values" field into a Type slice:
a JSON array decodes element-wise, a null leaves the nil slice, anything
else is a type error. -/
def decodeValuesField : List (String × Json) → Option (Except String (List ApiType))
  | [] => none
  | (key, j) :: rest =>
      match decodeValuesField rest with
      | some r => some r
      | none =>
        if key = "values" then
          match j with
          | .arr js => some (unmarshalTypeList js)
          | .null => some (.ok [])
          | _ => some (.error "cannot unmarshal value into []Type")
        else none

/-- Element-wise decoding of a JSON array into []Type; the first failing
element aborts the slice, as encoding/json does. -/
def unmarshalTypeList : List Json → Except String (List ApiType)
  | [] => .ok []
  | j :: js =>
      match ApiType.unmarshalJSON j with
      | .error e => .error e
      | .ok t =>
        match unmarshalTypeList js with
        | .error e => .error e
        | .ok ts => .ok (t :: ts)

end

/-- Whether UnmarshalJSON returns a nil error on this input. -/
def decodeSucceeds (j : Json) : Bool :=
  match ApiType.unmarshalJSON j with
  | .ok _ => true
  | .error _ => false

/-!
The translator: translateFactorioTypeToLuaLS (generator.go:330-471) and the
annotation generators that consume it.
-/

/-- Decimal digits of a natural number, fuel-recursive so that it reduces
definitionally; the fuel `n + 1` always suffices since a number has at most
`n + 1` digits. -/
def natDigits : Nat → Nat → String
  | 0, _ => ""
  | fuel + 1, n =>
      if n < 10 then String.singleton (Nat.digitChar n)
      else natDigits fuel (n / 10) ++ String.singleton (Nat.digitChar (n % 10))

/-- Decimal representation of a natural number (Go fmt %d). -/
def natRepr (n : Nat) : String := natDigits (n + 1) n

/-- Fractional decimal digits of a rational in [0, 1), emitted until the
remainder is zero or the fuel runs out (every float64 has a terminating
decimal expansion well within the fuel used). -/
def fracDigits : Nat → ℚ → String
  | 0, _ => ""
  | fuel + 1, q =>
      if q = 0 then ""
      else natRepr (q * 10).floor.toNat ++ fracDigits fuel (q * 10 - ((q * 10).floor : ℚ))

/-- Go fmt %v of a non-negative float64 (strconv format 'g'): an integral
value prints with no decimal point, otherwise the integer part, a point and
the terminating fractional expansion.  The exponent form used for very
large or very small magnitudes is not modelled; no input here reaches it. -/
def formatGoFloatPos (q : ℚ) : String :=
  if q - (q.floor : ℚ) = 0 then natRepr q.floor.toNat
  else natRepr q.floor.toNat ++ "." ++ fracDigits 64 (q - (q.floor : ℚ))

/-- Go fmt %v of a float64 value. -/
def formatGoFloat (q : ℚ) : String :=
  if q < 0 then "-" ++ formatGoFloatPos (-q) else formatGoFloatPos q

/-- Go strings.Join: the elements interleaved with the separator. -/
def goStringsJoin (elems : List String) (sep : String) : String :=
  match elems with
  | [] => ""
  | x :: xs => xs.foldl (fun acc e => acc ++ sep ++ e) x

/-- Go strings.Contains: sub occurs as a contiguous substring of s. -/
def goContains (s sub : String) : Bool := decide (sub.data <:+: s.data)

/-- Go strings.ReplaceAll on char lists: leftmost non-overlapping
occurrences of a non-empty pattern are replaced.  Fuel-recursive so that it
reduces definitionally; the fuel (the length of the subject) always
suffices because every step consumes at least one character. -/
def replaceChars : Nat → List Char → List Char → List Char → List Char
  | 0, s, _, _ => s
  | fuel + 1, s, pat, rep =>
      match s with
      | [] => []
      | c :: rest =>
          if pat ≠ [] ∧ pat.isPrefixOf s then rep ++ replaceChars fuel (s.drop pat.length) pat rep
          else c :: replaceChars fuel rest pat rep

/-- Go strings.ReplaceAll on strings (all patterns used here are non-empty,
matching the source's calls). -/
def goReplaceAll (s pat rep : String) : String :=
  ⟨replaceChars s.data.length s.data pat.data rep.data⟩

/-- The string-literal escaping of the literal case, generator.go:396-402:
quote, backslash, newline, carriage-return and tab are replaced in that
order, and the result is wrapped in double quotes. -/
def escapeLuaLiteral (val : String) : String :=
  let escapedString := goReplaceAll val "\"" "\\\""
  let escapedString := goReplaceAll escapedString "\\" "\\\\"
  let escapedString := goReplaceAll escapedString "\n" "\\n"
  let escapedString := goReplaceAll escapedString "\r" "\\r"
  let escapedString := goReplaceAll escapedString "\t" "\\t"
  "\"" ++ escapedString ++ "\""

/-- The simple-name switch of translateFactorioTypeToLuaLS,
generator.go:334-355, inlined there and named here: known primitives map to
LuaLS spellings, everything else passes through as a presumed reference. -/
def mapSimpleName (name : String) : String :=
  match name with
  | "string" => "string"
  | "int" | "uint" | "long" | "ulong" | "float" | "double" | "number" => "number"
  | "boolean" => "boolean"
  | "table" => "table"
  | "nil" => "nil"
  | "object" => "any"
  | "LuaObject" => "LuaObject"
  | "void" => "nil"
  | _ => name

mutual

/-- translateFactorioTypeToLuaLS (generator.go:330-471): the recursive
rendering of a Type into a LuaLS annotation type string.  The Go literal
case switches on int and float64 together; the int case is unreachable for
JSON-decoded values (encoding/json yields float64) and GoValue accordingly
has a single float case. -/
def translateFactorioTypeToLuaLS : ApiType → String
  | ApiType.mk name ctype value key vals lit _ _ =>
    -- the t.IsSimple() guard, inlined over the matched fields
    if name ≠ "" && ctype = "" then mapSimpleName name
    else
      match ctype with
      | "array" =>
          (match value with
           | some v => translateFactorioTypeToLuaLS v ++ "[]"
           | none => "table")
      | "dictionary" =>
          (match key, value with
           | some k, some v =>
               "table<" ++ translateFactorioTypeToLuaLS k ++ ", " ++ translateFactorioTypeToLuaLS v ++ ">"
           | _, _ => "table")
      | "union" =>
          (match vals with
           | [] => "any"
           | v :: vs => goStringsJoin (translateFactorioTypeToLuaLS v :: translateList vs) " | ")
      | "literal" =>
          (match lit with
           | some (GoValue.float q) => formatGoFloat q
           | some (GoValue.str s) => escapeLuaLiteral s
           | some (GoValue.boolean b) => if b then "true" else "false"
           | some _ => "any"
           | none => "any")
      | "type" =>
          (match value with
           | some v => translateFactorioTypeToLuaLS v
           | none => "any")
      | "struct" =>
          if name ≠ "" then name else "table"
      | "tuple" =>
          (match vals with
           | [] => "table"
           | v :: vs =>
               "\x7b" ++
                 goStringsJoin ((natRepr 1 ++ ": " ++ translateFactorioTypeToLuaLS v)
                     :: translateTupleFields 2 vs) ", " ++ "\x7d")
      | "builtin" => "any"
      | _ =>
          if name ≠ "" then name else "any"

/-- The per-option rendering loop of the union case. -/
def translateList : List ApiType → List String
  | [] => []
  | t :: ts => translateFactorioTypeToLuaLS t :: translateList ts

/-- The per-element rendering loop of the tuple case: 1-based position
labels paired with each rendered element. -/
def translateTupleFields : Nat → List ApiType → List String
  | _, [] => []
  | i, t :: ts =>
      (natRepr i ++ ": " ++ translateFactorioTypeToLuaLS t) :: translateTupleFields (i + 1) ts

end

/-- The nullable-suffix step inlined at generator.go:261-263 (properties),
305-307 (parameters) and 316-318 (returns): when the site is nullable and
the rendered type does not already contain "| nil", append " | nil". -/
def applyNullableSuffix (nullable : Bool) (luaLSType : String) : String :=
  if nullable && !(goContains luaLSType "| nil") then luaLSType ++ " | nil" else luaLSType

/-- Property (types.go): the fields generatePropertyAnnotation reads. -/
structure Property where
  description : String
  type : ApiType
  optional : Bool
  nullable : Bool
  read : Bool
  write : Bool

/-- Parameter (types.go): the fields generateMethodAnnotation reads. -/
structure Parameter where
  name : String
  description : String
  type : ApiType
  optional : Bool
  nullable : Bool

/-- ReturnType (types.go): the fields generateMethodAnnotation reads. -/
structure ReturnType where
  type : ApiType
  description : String
  nullable : Bool

/-- Method (types.go): the fields generateMethodAnnotation reads. -/
structure Method where
  description : String
  parameters : List Parameter
  returnTypes : List ReturnType

/-- generatePropertyAnnotation (generator.go:255-290). -/
def generatePropertyAnnotation (name : String) (property : Property) : String :=
  let luaLSType := translateFactorioTypeToLuaLS property.type
  let luaLSType := applyNullableSuffix property.nullable luaLSType
  let access :=
    if property.read && property.write then "(Read/Write)"
    else if property.read then "(Read-only)"
    else if property.write then "(Write-only)"
    else ""
  let desc :=
    if access ≠ "" then
      (if property.description ≠ "" then property.description ++ " " ++ access else access)
    else property.description
  "---@field " ++ name ++ " " ++ luaLSType ++ " " ++ desc

/-- generateMethodAnnotation (generator.go:293-326). -/
def generateMethodAnnotation (name : String) (method : Method) : String :=
  let sb := "---@method " ++ name ++ "\n"
  let sb := method.parameters.foldl (fun acc param =>
      let luaLSType := translateFactorioTypeToLuaLS param.type
      let optional := if param.optional then " [opt]" else ""
      let luaLSType := applyNullableSuffix param.nullable luaLSType
      acc ++ "---@param " ++ param.name ++ optional ++ " " ++ luaLSType ++ " "
        ++ param.description ++ "\n") sb
  let sb := method.returnTypes.foldl (fun acc ret =>
      let luaLSType := translateFactorioTypeToLuaLS ret.type
      let luaLSType := applyNullableSuffix ret.nullable luaLSType
      acc ++ "---@return " ++ luaLSType ++ " " ++ ret.description ++ "\n") sb
  sb ++ name ++ ": " ++ method.description ++ "\n"

/-!
A size measure on Type trees, used for induction over the nested recursion.
-/

mutual

def ApiType.depth : ApiType → Nat
  | .mk _ _ v k vs _ _ _ => 1 + depthOpt v + depthOpt k + depthList vs

def depthOpt : Option ApiType → Nat
  | none => 0
  | some t => 1 + ApiType.depth t

def depthList : List ApiType → Nat
  | [] => 0
  | t :: ts => 1 + ApiType.depth t + depthList ts

end

/-!
Helper lemmas shared by the claim theorems.
-/

theorem length_pos_of_ne_empty : ∀ s : String, s ≠ "" → 1 ≤ s.length
  | ⟨[]⟩, h => absurd rfl h
  | ⟨c :: cs⟩, _ => by simp [String.length]

theorem string_singleton_length (c : Char) : (String.singleton c).length = 1 := rfl

theorem natDigits_length_pos : ∀ (fuel n : Nat), 1 ≤ (natDigits (fuel + 1) n).length := by
  intro fuel n
  rw [natDigits]
  by_cases h : n < 10
  · rw [if_pos h, string_singleton_length]
  · rw [if_neg h]
    simp [String.length_append, string_singleton_length]

theorem natRepr_length_pos (n : Nat) : 1 ≤ (natRepr n).length := by
  unfold natRepr
  exact natDigits_length_pos n n

theorem formatGoFloat_length_pos (q : ℚ) : 1 ≤ (formatGoFloat q).length := by
  have h1 := natRepr_length_pos q.floor.toNat
  have h2 := natRepr_length_pos (-q).floor.toNat
  unfold formatGoFloat formatGoFloatPos
  split_ifs <;> simp [String.length_append] <;> omega

theorem foldl_join_length (sep : String) :
    ∀ (xs : List String) (acc : String),
      acc.length ≤ (xs.foldl (fun a e => a ++ sep ++ e) acc).length := by
  intro xs
  induction xs with
  | nil => intro acc; simp
  | cons x xs ih =>
      intro acc
      refine le_trans ?_ (ih (acc ++ sep ++ x))
      simp [String.length_append]
      omega

theorem goContains_append_nil (s : String) : goContains (s ++ " | nil") "| nil" = true := by
  unfold goContains
  refine decide_eq_true ?_
  refine ⟨s.data ++ [' '], [], ?_⟩
  simp [String.data_append]

/-!
The claims.
-/

/-- C1 counterexample: the claim says decoding a type-position JSON value
never raises an error, but Type.UnmarshalJSON returns an error for a value
that is neither a string nor an object — here the JSON number 5 — which
aborts the enclosing document unmarshal. -/
theorem unmarshalJSON_errors_on_number_node :
    decodeSucceeds (Json.num 5 true) = false := rfl

/-- C1 amended: bare strings always decode without error; a dictionary
object missing its key field is non-fatal and degrades to a Type whose
translation is the generic "table" placeholder; but a type node that is
neither a string nor an object makes UnmarshalJSON return an error that
aborts the document load. -/
theorem unmarshalJSON_degradation_amended :
    (∀ s : String, decodeSucceeds (Json.str s) = true)
    ∧ ApiType.unmarshalJSON
        (Json.obj [("complex_type", Json.str "dictionary"), ("value", Json.str "string")])
      = Except.ok (ApiType.mk "" "dictionary" (some (mkSimpleType "string")) none [] none false
          BasicMember.zero)
    ∧ translateFactorioTypeToLuaLS
        (ApiType.mk "" "dictionary" (some (mkSimpleType "string")) none [] none false
          BasicMember.zero) = "table"
    ∧ decodeSucceeds (Json.num 5 true) = false :=
  ⟨fun _ => rfl, rfl, rfl, rfl⟩

/-- C2: evaluating the translator at the literal string a-quote-b-backslash-c
shows the escaping defect: the source escapes quotes before backslashes
(generator.go:397-398), so the backslash introduced for the quote is itself
doubled and the quote ends up unescaped; the output differs from the
correctly escaped form the claim requires, and a Lua parser reading it stops
at the now-unescaped quote. -/
theorem literal_escape_order_defect :
    ApiType.unmarshalJSON
        (Json.obj [("complex_type", Json.str "literal"), ("value", Json.str "a\"b\\c")])
      = Except.ok (mkLiteralType (some (GoValue.str "a\"b\\c")))
    ∧ translateFactorioTypeToLuaLS (mkLiteralType (some (GoValue.str "a\"b\\c")))
      = "\"a\\\\\"b\\\\c\""
    ∧ "\"a\\\\\"b\\\\c\"" ≠ "\"a\\\"b\\\\c\"" :=
  ⟨rfl, rfl, by decide⟩

/-- C4: decoding the bare builtin marker object does not succeed — the
source's builtin arm reads `return "any"` where its `error` result type is
expected (types.go:335), modelled as returning "any" as the error — while
translating the builtin marker Type does yield "any", the marker supplying
no name of its own. -/
theorem builtin_decode_returns_any_error :
    ApiType.unmarshalJSON (Json.obj [("complex_type", Json.str "builtin")])
      = Except.error "any"
    ∧ translateFactorioTypeToLuaLS mkBuiltinMarker = "any"
    ∧ mkBuiltinMarker.name = "" :=
  ⟨rfl, rfl, rfl⟩

/-- C5 counterexample: the decoder does not preserve the integer-versus-
floating distinction — the JSON number tokens 5 and 5.0 differ in native
kind yet decode to the same Type, because encoding/json turns every number
into float64. -/
theorem literal_kind_collapse_counterexample :
    Json.num 5 true ≠ Json.num 5 false
    ∧ ApiType.unmarshalJSON
        (Json.obj [("complex_type", Json.str "literal"), ("value", Json.num 5 true)])
      = ApiType.unmarshalJSON
        (Json.obj [("complex_type", Json.str "literal"), ("value", Json.num 5 false)]) :=
  ⟨by simp, rfl⟩

/-- C5 amended: the decoder reads the scalar stored under the value key
verbatim and preserves the distinction between string, boolean and number —
every JSON number becoming a float64, so the integer/floating lexical
distinction is collapsed — and the literal's rendered target-type is later
derived from that stored kind. -/
theorem literal_kind_amended :
    (∀ s : String, ApiType.unmarshalJSON
        (Json.obj [("complex_type", Json.str "literal"), ("value", Json.str s)])
      = Except.ok (mkLiteralType (some (GoValue.str s))))
    ∧ (∀ b : Bool, ApiType.unmarshalJSON
        (Json.obj [("complex_type", Json.str "literal"), ("value", Json.boolean b)])
      = Except.ok (mkLiteralType (some (GoValue.boolean b))))
    ∧ (∀ (q : ℚ) (il : Bool), ApiType.unmarshalJSON
        (Json.obj [("complex_type", Json.str "literal"), ("value", Json.num q il)])
      = Except.ok (mkLiteralType (some (GoValue.float q))))
    ∧ translateFactorioTypeToLuaLS (mkLiteralType (some (GoValue.str "x"))) = "\"x\""
    ∧ translateFactorioTypeToLuaLS (mkLiteralType (some (GoValue.boolean true))) = "true"
    ∧ translateFactorioTypeToLuaLS (mkLiteralType (some (GoValue.float 5))) = "5" :=
  ⟨fun _ => rfl, fun _ => rfl, fun _ _ => rfl, rfl, rfl, by
    show formatGoFloat 5 = "5"
    have h : ((5:ℚ)).floor = 5 := by simp [Rat.floor_def']
    rw [formatGoFloat, if_neg (by norm_num), formatGoFloatPos, h, if_pos (by norm_num)]
    decide⟩

/-- C6: evaluating the decoder at a type-wrapper object carrying name and
description shows that the name is retained but the description is lost:
the `json:",inline"` tag on BasicMemberRaw is not an encoding/json feature,
so the BasicMember metadata is never captured and the decoded node keeps
the zero BasicMember with an empty description. -/
theorem metadata_description_dropped :
    ApiType.unmarshalJSON
        (Json.obj [("complex_type", Json.str "type"), ("name", Json.str "WrapperName"),
                   ("description", Json.str "doc text"), ("value", Json.str "string")])
      = Except.ok (ApiType.mk "WrapperName" "type" (some (mkSimpleType "string")) none [] none
          false BasicMember.zero)
    ∧ BasicMember.zero.description = "" :=
  ⟨rfl, rfl⟩

/-- C7: union options decode in source order and translate to the per-option
renderings joined with the alternation operator in that order; reordering
the input list reorders the output. -/
theorem union_order_preserved :
    (∀ (v : ApiType) (vs : List ApiType),
      translateFactorioTypeToLuaLS (mkUnionType (v :: vs))
        = goStringsJoin (translateFactorioTypeToLuaLS v :: translateList vs) " | ")
    ∧ ApiType.unmarshalJSON
        (Json.obj [("complex_type", Json.str "union"),
                   ("values", Json.arr [Json.str "string", Json.str "boolean", Json.str "int"])])
      = Except.ok (mkUnionType [mkSimpleType "string", mkSimpleType "boolean", mkSimpleType "int"])
    ∧ translateFactorioTypeToLuaLS
        (mkUnionType [mkSimpleType "string", mkSimpleType "boolean", mkSimpleType "int"])
      = "string | boolean | number"
    ∧ translateFactorioTypeToLuaLS
        (mkUnionType [mkSimpleType "boolean", mkSimpleType "string", mkSimpleType "int"])
      = "boolean | string | number"
    ∧ "string | boolean | number" ≠ "boolean | string | number" :=
  ⟨fun _ _ => rfl, rfl, rfl, rfl, by decide⟩

/-- C9: decoding any bare JSON string s yields the simple Type named s with
an empty ComplexType and no error; decoding "boolean" and translating with
nullable false yields exactly "boolean". -/
theorem bare_string_decodes_simple :
    (∀ s : String, ApiType.unmarshalJSON (Json.str s) = Except.ok (mkSimpleType s))
    ∧ (mkSimpleType "boolean").complexType = ""
    ∧ translateFactorioTypeToLuaLS (mkSimpleType "boolean") = "boolean"
    ∧ applyNullableSuffix false (translateFactorioTypeToLuaLS (mkSimpleType "boolean"))
      = "boolean" :=
  ⟨fun _ => rfl, rfl, rfl, rfl⟩

/-- C3: at a nullable site the renderer appends the " | nil" alternative
exactly when the rendered string does not already contain it; the suffixing
step is idempotent and its output always carries the suffix; the property
and method generators exercise exactly this step. -/
theorem nullable_suffix_idempotent :
    (∀ t : ApiType,
      applyNullableSuffix true (translateFactorioTypeToLuaLS t)
        = (if goContains (translateFactorioTypeToLuaLS t) "| nil" = true
           then translateFactorioTypeToLuaLS t
           else translateFactorioTypeToLuaLS t ++ " | nil"))
    ∧ (∀ s : String,
        applyNullableSuffix true (applyNullableSuffix true s) = applyNullableSuffix true s)
    ∧ (∀ s : String, goContains (applyNullableSuffix true s) "| nil" = true)
    ∧ generatePropertyAnnotation "p" ⟨"", mkSimpleType "boolean", false, true, false, false⟩
      = "---@field p boolean | nil "
    ∧ generateMethodAnnotation "m" ⟨"d", [⟨"a", "pd", mkSimpleType "boolean", false, true⟩], []⟩
      = "---@method m\n---@param a boolean | nil pd\nm: d\n" := by
  refine ⟨?_, ?_, ?_, rfl, rfl⟩
  · intro t
    cases hc : goContains (translateFactorioTypeToLuaLS t) "| nil" <;>
      simp [applyNullableSuffix, hc]
  · intro s
    cases hc : goContains s "| nil" <;>
      simp [applyNullableSuffix, hc, goContains_append_nil]
  · intro s
    cases hc : goContains s "| nil" <;>
      simp [applyNullableSuffix, hc, goContains_append_nil]

/-- C8: the translator is pure and total over all Type values: every finite
Type tree is mapped to a string, identical inputs yield identical outputs,
and the degraded and placeholder variants all reach their defined fallbacks
(empty union, wrapper with no inner type, literal with no value, array with
no element type, the all-zero Type). -/
theorem translator_total_pure :
    (∀ t : ApiType, ∃ s : String, translateFactorioTypeToLuaLS t = s)
    ∧ (∀ t1 t2 : ApiType, t1 = t2 →
        translateFactorioTypeToLuaLS t1 = translateFactorioTypeToLuaLS t2)
    ∧ translateFactorioTypeToLuaLS (mkUnionType []) = "any"
    ∧ translateFactorioTypeToLuaLS (mkWrapperType none) = "any"
    ∧ translateFactorioTypeToLuaLS (mkLiteralType none) = "any"
    ∧ translateFactorioTypeToLuaLS (mkArrayType none) = "table"
    ∧ translateFactorioTypeToLuaLS ApiType.zero = "any" :=
  ⟨fun t => ⟨translateFactorioTypeToLuaLS t, rfl⟩, fun _ _ h => by rw [h],
   rfl, rfl, rfl, rfl, rfl⟩

/-- C8 witness: the purity conjunct applied at a concrete input. -/
theorem translator_total_pure_witness :
    translateFactorioTypeToLuaLS mkBuiltinMarker = translateFactorioTypeToLuaLS mkBuiltinMarker :=
  translator_total_pure.2.1 mkBuiltinMarker mkBuiltinMarker rfl

theorem depth_pos (t : ApiType) : 1 ≤ t.depth := by
  match t with
  | ApiType.mk n c v k vs l f b =>
    simp [ApiType.depth]
    omega

theorem mapSimpleName_length_pos (name : String) (h : name ≠ "") :
    1 ≤ (mapSimpleName name).length := by
  unfold mapSimpleName
  split <;> first
    | decide
    | exact length_pos_of_ne_empty _ h

theorem goStringsJoin_cons_length (x : String) (xs : List String) (sep : String) :
    x.length ≤ (goStringsJoin (x :: xs) sep).length :=
  foldl_join_length sep xs x

/-- C10: for every Type value, including the zero value and all degraded
shapes, the translator returns a non-empty string. -/
theorem translator_output_nonempty :
    ∀ t : ApiType, 1 ≤ (translateFactorioTypeToLuaLS t).length := by
  suffices h : ∀ (n : Nat) (t : ApiType), t.depth ≤ n →
      1 ≤ (translateFactorioTypeToLuaLS t).length from
    fun t => h t.depth t le_rfl
  intro n
  induction n with
  | zero =>
    intro t hle
    have := depth_pos t
    omega
  | succ n ih =>
    intro t hle
    rw [translateFactorioTypeToLuaLS.eq_def]
    split
    rename_i name ctype value key vals lit ff bm
    by_cases hs : (name ≠ "" && ctype = "") = true
    · rw [if_pos hs]
      have hn : name ≠ "" := by
        have := (Bool.and_eq_true _ _).mp hs
        simpa using this.1
      exact mapSimpleName_length_pos name hn
    · rw [if_neg hs]
      split
      · -- array
        split
        · have h2 : "[]".length = 2 := rfl
          simp [String.length_append]
          omega
        · decide
      · -- dictionary
        split
        · have h2 : ">".length = 1 := rfl
          simp [String.length_append]
          omega
        · decide
      · -- union
        split
        · decide
        · rename_i v vs
          have hd : v.depth ≤ n := by
            simp [ApiType.depth, depthList] at hle
            omega
          exact le_trans (ih v hd) (goStringsJoin_cons_length _ _ _)
      · -- literal
        split
        · exact formatGoFloat_length_pos _
        · have h2 : "\"".length = 1 := rfl
          simp [escapeLuaLiteral, String.length_append]
          omega
        · split <;> decide
        · decide
        · decide
      · -- type wrapper
        split
        · rename_i v
          have hd : v.depth ≤ n := by
            simp [ApiType.depth, depthOpt] at hle
            omega
          exact ih v hd
        · decide
      · -- struct
        split
        · rename_i hne
          exact length_pos_of_ne_empty _ hne
        · decide
      · -- tuple
        split
        · decide
        · have h2 : "\x7d".length = 1 := rfl
          simp [String.length_append]
          omega
      · -- builtin
        decide
      · -- default
        split
        · rename_i hne
          exact length_pos_of_ne_empty _ hne
        · decide
